import Mathlib

/-!
Shallow embedding of the NutriScan multi-image analysis aggregator
(src/App.tsx: `handleImagesSelected` / `processFile` and the history
quota effect) and of the analysis source client
(src/services/geminiService.ts: `analyzeImage`).

Modelling conventions: JavaScript numbers are rationals, `Math.round`
is Mathlib's `round` (both compute `floor (x + 1/2)`), optional fields
are `Option`, and the asynchronous settlements of one batch are a list
of per-task outcomes folded over the composite state — each fold step
is one atomic state update, exactly as the single-threaded event loop
runs the `setCurrentAnalysis` updaters one at a time.
-/

namespace NutriScan

/-- Macro-nutrient tuple from `types.ts`: calories, protein, carbs, fat.
The legacy optional sodium field is never read or written by the
aggregator's merge code and is omitted. -/
structure MacroNutrients where
  calories : ℚ
  protein : ℚ
  carbs : ℚ
  fat : ℚ
  deriving DecidableEq, Repr

/-- One labelled key-nutrient observation from `types.ts`. -/
structure KeyNutrient where
  label : String
  value : String
  unit : Option String := none
  isHigh : Option Bool := none
  deriving DecidableEq, Repr

/-- Fixed category set from `types.ts`. -/
inductive HealthCategory where
  | good
  | fair
  | occasional
  | bad
  deriving DecidableEq, Repr

/-- One food/product entry from `types.ts`. -/
structure AnalysisItem where
  name : String
  quantity : Option String := none
  macros : MacroNutrients
  keyNutrients : List KeyNutrient := []
  category : HealthCategory
  reason : String
  alternatives : Option (List String) := none
  deriving DecidableEq, Repr

/-- Scan mode from `types.ts`. -/
inductive ScanMode where
  | receipt
  | menu
  deriving DecidableEq, Repr

/-- The `scanProgress` pair from `types.ts`. -/
structure ScanProgress where
  current : ℕ
  total : ℕ
  deriving DecidableEq, Repr

/-- `BillAnalysis` from `types.ts`: both the per-image partial result and
the evolving composite use this record. -/
structure BillAnalysis where
  id : String
  date : String
  type : ScanMode
  restaurantName : Option String := none
  items : List AnalysisItem
  totalMacros : Option MacroNutrients := none
  healthScore : ℚ
  summary : String
  scanProgress : Option ScanProgress := none
  deriving DecidableEq, Repr

/-- Pointwise addition of the four macro fields (the `+=` block of the
merge in App.tsx). -/
def addMacros (m t : MacroNutrients) : MacroNutrients :=
  { calories := m.calories + t.calories
    protein := m.protein + t.protein
    carbs := m.carbs + t.carbs
    fat := m.fat + t.fat }

/-- The all-zero macro tuple (App.tsx line 64). -/
def zeroMacros : MacroNutrients :=
  { calories := 0, protein := 0, carbs := 0, fat := 0 }

/-- Macro part of the merge (App.tsx lines 93-106): add the source's
pre-aggregated totals when present, otherwise fold over its items
(`result.items.forEach`). -/
def mergeMacros (prev : MacroNutrients) (r : BillAnalysis) : MacroNutrients :=
  match r.totalMacros with
  | some t => addMacros prev t
  | none => r.items.foldl (fun m it => addMacros m it.macros) prev

/-- Sum of the macro tuples of a list of items. -/
def sumItemMacros (items : List AnalysisItem) : MacroNutrients :=
  items.foldl (fun m it => addMacros m it.macros) zeroMacros

/-- JS truthiness of an optional string: `undefined` and `""` are falsy. -/
def strTruthy : Option String → Bool
  | none => false
  | some s => s != ""

/-- JS `a || b` on optional strings
(`prev.restaurantName || result.restaurantName`, App.tsx line 122). -/
def strOr (a b : Option String) : Option String :=
  if strTruthy a then a else b

/-- `prev.scanProgress?.current || 0` (App.tsx lines 111 and 133): the
number of tasks of the batch already settled into this composite. -/
def settledCount (b : BillAnalysis) : ℕ :=
  (b.scanProgress.map ScanProgress.current).getD 0

/-- The success branch of `processFile`'s state updater (App.tsx lines
86-125): one atomic merge of a successful source result `r` into the
composite `prev`.  `total` is `files.length`.  `prev.totalMacros!` is a
non-null assertion in the source; the composite always carries totals,
modelled with `getD zeroMacros`. -/
def mergeSuccess (total : ℕ) (prev r : BillAnalysis) : BillAnalysis :=
  { prev with
    items := prev.items ++ r.items
    totalMacros := some (mergeMacros (prev.totalMacros.getD zeroMacros) r)
    healthScore :=
      ((round ((prev.healthScore * (settledCount prev : ℚ) + r.healthScore) /
        ((settledCount prev : ℚ) + 1)) : ℤ) : ℚ)
    summary :=
      if settledCount prev = 0 then r.summary
      else "Analyzed " ++ toString (prev.items ++ r.items).length ++
        " items from " ++ toString (settledCount prev + 1) ++ " images..."
    restaurantName := strOr prev.restaurantName r.restaurantName
    scanProgress := some ⟨settledCount prev + 1, total⟩ }

/-- The catch branch of `processFile` (App.tsx lines 127-135): a failed
source only advances progress; the error is swallowed there, so the
model remains a total function — nothing escapes the merge layer. -/
def mergeFailure (total : ℕ) (prev : BillAnalysis) : BillAnalysis :=
  { prev with scanProgress := some ⟨settledCount prev + 1, total⟩ }

/-- Settlement of one per-image task: the analysis call either produced
a partial result or rejected. -/
inductive Outcome where
  | success (r : BillAnalysis)
  | failure
  deriving DecidableEq, Repr

/-- One settlement folded into the composite. -/
def mergeStep (total : ℕ) (prev : BillAnalysis) : Outcome → BillAnalysis
  | .success r => mergeSuccess total prev r
  | .failure => mergeFailure total prev

/-- The initial composite (App.tsx lines 57-66). -/
def initialAnalysis (id date : String) (mode : ScanMode) (total : ℕ) : BillAnalysis :=
  { id := id
    date := date
    type := mode
    items := []
    healthScore := 0
    summary := "Initiating parallel analysis..."
    totalMacros := some zeroMacros
    scanProgress := some ⟨0, total⟩ }

/-- Running a batch: `Promise.all` settles the tasks in some order and
each settlement performs one atomic merge step on the shared composite. -/
def runBatch (total : ℕ) (init : BillAnalysis) (outcomes : List Outcome) : BillAnalysis :=
  outcomes.foldl (mergeStep total) init

/-- Finalization (App.tsx lines 142-149): clear the progress field; the
resulting record is appended to history. -/
def finalize (b : BillAnalysis) : BillAnalysis :=
  { b with scanProgress := none }

/-- The partial results of the successful settlements, in settlement order. -/
def successResults (outcomes : List Outcome) : List BillAnalysis :=
  outcomes.filterMap fun o =>
    match o with
    | .success r => some r
    | .failure => none

/-- Macro contribution of one merged source: its pre-aggregated totals
when present, otherwise the sum over its items (the fallback path). -/
def sourceContribution (r : BillAnalysis) : MacroNutrients :=
  r.totalMacros.getD (sumItemMacros r.items)

/-- Arithmetic sum of the contributions of a list of merged sources. -/
def macroSum (rs : List BillAnalysis) : MacroNutrients :=
  rs.foldl (fun m r => addMacros m (sourceContribution r)) zeroMacros

/-- All four macro fields non-negative. -/
def macroNonneg (m : MacroNutrients) : Prop :=
  0 ≤ m.calories ∧ 0 ≤ m.protein ∧ 0 ≤ m.carbs ∧ 0 ≤ m.fat

instance (m : MacroNutrients) : Decidable (macroNonneg m) := by
  unfold macroNonneg
  infer_instance

/-- Optional macro tuple non-negative when present. -/
def optMacroNonneg : Option MacroNutrients → Prop
  | none => True
  | some t => macroNonneg t

instance (o : Option MacroNutrients) : Decidable (optMacroNonneg o) :=
  match o with
  | none => .isTrue trivial
  | some t => inferInstanceAs (Decidable (macroNonneg t))

/-- All listed sources report only non-negative macros, at item level and
at total level. -/
def sourcesNonneg (rs : List BillAnalysis) : Prop :=
  ∀ r ∈ rs, (∀ it ∈ r.items, macroNonneg it.macros) ∧ optMacroNonneg r.totalMacros

instance (rs : List BillAnalysis) : Decidable (sourcesNonneg rs) := by
  unfold sourcesNonneg
  infer_instance

/-- Does the first-result-ready branch (App.tsx lines 81-84, the switch
out of the analyzing spinner into the results view) run at this
settlement?  The shared `completedCount` is incremented on success and
on failure alike, but only the success branch performs the
`completedCount === 1` test. -/
def signalAt (settledBefore : ℕ) : Outcome → Bool
  | .success _ => settledBefore + 1 == 1
  | .failure => false

/-- How many times the first-result-ready transition fires over a whole
settlement order. -/
def signalCount (outcomes : List Outcome) : ℕ :=
  (outcomes.foldl
    (fun p o => (p.1 + 1, p.2 + (if signalAt p.1 o then 1 else 0)))
    ((0 : ℕ), (0 : ℕ))).2

/-- Result of the history quota effect (App.tsx lines 31-42) for one
history value. -/
inductive QuotaOutcome where
  | persisted (stored : List BillAnalysis)
  | caught
  | thrown
  deriving DecidableEq, Repr

/-- The history quota `useEffect` (App.tsx lines 31-42).  `canStore l`
says whether `localStorage.setItem` of the serialized list succeeds.
The guarded write is tried first; on quota failure with more than one
record, the oldest record (index 0, `history.slice(1)`) is dropped,
`setHistory` is called, and the write is retried once — outside any
try/catch.  If that retry succeeds the effect re-runs on the trimmed
history and its guarded write succeeds, settling at `persisted`; if the
retry fails the exception escapes the effect (`thrown`).  With at most
one record the caught failure is only logged (`caught`). -/
def historyQuotaEffect (canStore : List BillAnalysis → Bool)
    (h : List BillAnalysis) : QuotaOutcome :=
  if canStore h then .persisted h
  else if 1 < h.length then
    if canStore (h.drop 1) then .persisted (h.drop 1) else .thrown
  else .caught

/-- The fixed message thrown by the catch-all of `analyzeImage`
(geminiService.ts line 195). -/
def connectionErrorMessage : String :=
  "Failed to connect to analysis server. Ensure Node.js backend is running."

/-- The analysis payload parsed from a successful server response
(the zod schema of server.js; `type` is overridden on hydration). -/
structure AnalysisData where
  restaurantName : Option String := none
  type : ScanMode
  items : List AnalysisItem
  totalMacros : Option MacroNutrients := none
  healthScore : ℚ
  summary : String
  deriving DecidableEq, Repr

/-- Client-side hydration of a parsed payload
(geminiService.ts lines 184-189): inject id, date and mode. -/
def hydrate (d : AnalysisData) (id date : String) (mode : ScanMode) : BillAnalysis :=
  { id := id
    date := date
    type := mode
    restaurantName := d.restaurantName
    items := d.items
    totalMacros := d.totalMacros
    healthScore := d.healthScore
    summary := d.summary
    scanProgress := none }

/-- What the fetch inside `analyzeImage` can come back with. -/
inductive FetchOutcome where
  | fetchFailed (reason : String)
  | badResponse (status : ℕ) (errField : Option String)
  | badResponseUnparsable (status : ℕ)
  | okUnparsable
  | okParsed (d : AnalysisData)
  deriving Repr

/-- JS `errorData.error || default` on the error body. -/
def strOrDefault (a : Option String) (dflt : String) : String :=
  match a with
  | none => dflt
  | some s => if s != "" then s else dflt

/-- The try block of `analyzeImage` (geminiService.ts lines 163-190):
a fetch rejection or a JSON parse failure surfaces as that error; a
non-OK response throws `errorData.error || Server Error: status`; an OK
response is parsed and hydrated. -/
def analyzeImageTry (id date : String) (mode : ScanMode) :
    FetchOutcome → Except String BillAnalysis
  | .fetchFailed reason => .error reason
  | .badResponse status errField =>
    .error (strOrDefault errField ("Server Error: " ++ toString status))
  | .badResponseUnparsable _ => .error "Unexpected end of JSON input"
  | .okUnparsable => .error "Unexpected end of JSON input"
  | .okParsed d => .ok (hydrate d id date mode)

/-- `analyzeImage` (geminiService.ts lines 140-197): the compression
step precedes the try block, so its rejection propagates unchanged;
every error thrown inside the try block is caught and replaced by the
fixed connection-error message. -/
def analyzeImage (compressed : Except String String) (id date : String)
    (mode : ScanMode) (o : FetchOutcome) : Except String BillAnalysis :=
  match compressed with
  | .error e => .error e
  | .ok _ =>
    match analyzeImageTry id date mode o with
    | .ok a => .ok a
    | .error _ => .error connectionErrorMessage

/-! Concrete partial results and history records used by the closed
scenario theorems below. -/

/-- A concrete item with the given macro tuple. -/
def itemOf (nm : String) (c p cb f : ℚ) : AnalysisItem :=
  { name := nm, macros := ⟨c, p, cb, f⟩, category := .good, reason := "fits goals" }

/-- Scenario source: score 80, two items. -/
def r80 : BillAnalysis :=
  { id := "s1", date := "2024-05-01", type := .receipt
    items := [itemOf "Grilled Chicken" 320 30 5 12, itemOf "Side Salad" 150 4 10 9]
    totalMacros := some ⟨470, 34, 15, 21⟩
    healthScore := 80, summary := "Mostly lean choices" }

/-- Scenario source: score 60, three items, no pre-aggregated totals. -/
def r60 : BillAnalysis :=
  { id := "s2", date := "2024-05-01", type := .receipt
    items := [itemOf "Burger" 550 25 40 30, itemOf "Fries" 365 4 48 17,
      itemOf "Soda" 150 0 39 0]
    totalMacros := none
    healthScore := 60, summary := "Mixed quality" }

/-- Scenario source: score 55, one item (the single-image scenario). -/
def rSingle : BillAnalysis :=
  { id := "s3", date := "2024-05-02", type := .receipt
    items := [itemOf "Veggie Wrap" 400 12 55 9]
    totalMacros := some ⟨400, 12, 55, 9⟩
    healthScore := 55, summary := "Light meal" }

/-- Scenario source without a pre-aggregated macro total. -/
def rNoTotal : BillAnalysis :=
  { id := "s4", date := "2024-05-03", type := .receipt
    items := [itemOf "Trail Mix" 250 8 30 10]
    totalMacros := none
    healthScore := 40, summary := "Simple snack" }

/-- Concrete finalized history records. -/
def recH1 : BillAnalysis :=
  { id := "h1", date := "2024-04-01", type := .receipt, items := []
    healthScore := 10, summary := "old record" }

def recH2 : BillAnalysis :=
  { id := "h2", date := "2024-04-02", type := .receipt, items := []
    healthScore := 20, summary := "middle record" }

def recH3 : BillAnalysis :=
  { id := "h3", date := "2024-04-03", type := .receipt, items := []
    healthScore := 30, summary := "newest record" }

/-- The single-image batch of a source `r`, finalized into the history
record (initialize, one successful merge, finalize). -/
def singleBatchRecord (id date : String) (mode : ScanMode) (r : BillAnalysis) : BillAnalysis :=
  finalize (runBatch 1 (initialAnalysis id date mode 1) [Outcome.success r])

/-! Helper lemmas about the embedded operations. -/

theorem runBatch_nil (total : ℕ) (init : BillAnalysis) :
    runBatch total init [] = init := rfl

theorem runBatch_cons (total : ℕ) (init : BillAnalysis) (o : Outcome)
    (rest : List Outcome) :
    runBatch total init (o :: rest) = runBatch total (mergeStep total init o) rest := rfl

theorem addMacros_zero_left (m : MacroNutrients) : addMacros zeroMacros m = m := by
  cases m
  simp [addMacros, zeroMacros]

theorem addMacros_zero_right (m : MacroNutrients) : addMacros m zeroMacros = m := by
  cases m
  simp [addMacros, zeroMacros]

theorem addMacros_assoc (a b c : MacroNutrients) :
    addMacros (addMacros a b) c = addMacros a (addMacros b c) := by
  cases a; cases b; cases c
  simp [addMacros, add_assoc]

theorem foldl_addMacros {α : Type} (f : α → MacroNutrients) (l : List α)
    (m : MacroNutrients) :
    l.foldl (fun a x => addMacros a (f x)) m =
      addMacros m (l.foldl (fun a x => addMacros a (f x)) zeroMacros) := by
  induction l generalizing m with
  | nil => exact (addMacros_zero_right m).symm
  | cons x xs ih =>
    calc (x :: xs).foldl (fun a y => addMacros a (f y)) m
        = xs.foldl (fun a y => addMacros a (f y)) (addMacros m (f x)) := rfl
      _ = addMacros (addMacros m (f x))
            (xs.foldl (fun a y => addMacros a (f y)) zeroMacros) := ih _
      _ = addMacros m (addMacros (addMacros zeroMacros (f x))
            (xs.foldl (fun a y => addMacros a (f y)) zeroMacros)) := by
          rw [addMacros_zero_left, addMacros_assoc]
      _ = addMacros m (xs.foldl (fun a y => addMacros a (f y))
            (addMacros zeroMacros (f x))) := by rw [ih (addMacros zeroMacros (f x))]
      _ = addMacros m ((x :: xs).foldl (fun a y => addMacros a (f y)) zeroMacros) := rfl

theorem sumItemMacros_cons (it : AnalysisItem) (l : List AnalysisItem) :
    sumItemMacros (it :: l) = addMacros it.macros (sumItemMacros l) := by
  calc sumItemMacros (it :: l)
      = l.foldl (fun a x => addMacros a x.macros) (addMacros zeroMacros it.macros) := rfl
    _ = addMacros (addMacros zeroMacros it.macros) (sumItemMacros l) :=
        foldl_addMacros (fun x => x.macros) l _
    _ = addMacros it.macros (sumItemMacros l) := by rw [addMacros_zero_left]

theorem macroSum_cons (r : BillAnalysis) (rs : List BillAnalysis) :
    macroSum (r :: rs) = addMacros (sourceContribution r) (macroSum rs) := by
  calc macroSum (r :: rs)
      = rs.foldl (fun a x => addMacros a (sourceContribution x))
          (addMacros zeroMacros (sourceContribution r)) := rfl
    _ = addMacros (addMacros zeroMacros (sourceContribution r)) (macroSum rs) :=
        foldl_addMacros sourceContribution rs _
    _ = addMacros (sourceContribution r) (macroSum rs) := by rw [addMacros_zero_left]

theorem mergeMacros_eq (m : MacroNutrients) (r : BillAnalysis) :
    mergeMacros m r = addMacros m (sourceContribution r) := by
  cases htm : r.totalMacros with
  | some t => simp [mergeMacros, sourceContribution, htm]
  | none =>
    simp only [mergeMacros, sourceContribution, htm, Option.getD_none]
    exact foldl_addMacros (fun it => it.macros) r.items m

theorem settledCount_mergeStep (total : ℕ) (prev : BillAnalysis) (o : Outcome) :
    settledCount (mergeStep total prev o) = settledCount prev + 1 := by
  cases o <;> simp [mergeStep, mergeSuccess, mergeFailure, settledCount]

theorem settledCount_runBatch (total : ℕ) (init : BillAnalysis)
    (outcomes : List Outcome) :
    settledCount (runBatch total init outcomes) =
      settledCount init + outcomes.length := by
  induction outcomes generalizing init with
  | nil => simp [runBatch]
  | cons o rest ih =>
    rw [runBatch_cons, ih, settledCount_mergeStep]
    simp only [List.length_cons]
    omega

theorem scanProgress_runBatch (total : ℕ) (init : BillAnalysis)
    (outcomes : List Outcome) (h : outcomes ≠ []) :
    (runBatch total init outcomes).scanProgress =
      some ⟨settledCount init + outcomes.length, total⟩ := by
  induction outcomes generalizing init with
  | nil => exact absurd rfl h
  | cons o rest ih =>
    rw [runBatch_cons]
    cases rest with
    | nil =>
      cases o <;> simp [runBatch, mergeStep, mergeSuccess, mergeFailure]
    | cons o2 rest2 =>
      rw [ih _ (by simp), settledCount_mergeStep]
      simp only [List.length_cons, Option.some.injEq, ScanProgress.mk.injEq, and_true]
      omega

theorem totalMacros_mergeSuccess (total : ℕ) (prev r : BillAnalysis) :
    (mergeSuccess total prev r).totalMacros =
      some (addMacros (prev.totalMacros.getD zeroMacros) (sourceContribution r)) := by
  simp [mergeSuccess, mergeMacros_eq]

theorem totalMacros_runBatch (total : ℕ) (init : BillAnalysis)
    (outcomes : List Outcome) (m : MacroNutrients) (h : init.totalMacros = some m) :
    (runBatch total init outcomes).totalMacros =
      some ((successResults outcomes).foldl
        (fun a r => addMacros a (sourceContribution r)) m) := by
  induction outcomes generalizing init m with
  | nil => simpa [runBatch, successResults] using h
  | cons o rest ih =>
    cases o with
    | success r =>
      rw [runBatch_cons]
      rw [ih (mergeStep total init (.success r)) (addMacros m (sourceContribution r))
        (by rw [mergeStep, totalMacros_mergeSuccess, h, Option.getD_some])]
      simp [successResults]
    | failure =>
      rw [runBatch_cons]
      rw [ih (mergeStep total init .failure) m (by simpa [mergeStep, mergeFailure] using h)]
      simp [successResults]

theorem macroNonneg_zero : macroNonneg zeroMacros := by
  refine ⟨le_refl 0, le_refl 0, le_refl 0, le_refl 0⟩

theorem macroNonneg_addMacros {a b : MacroNutrients}
    (ha : macroNonneg a) (hb : macroNonneg b) : macroNonneg (addMacros a b) :=
  ⟨add_nonneg ha.1 hb.1, add_nonneg ha.2.1 hb.2.1,
   add_nonneg ha.2.2.1 hb.2.2.1, add_nonneg ha.2.2.2 hb.2.2.2⟩

theorem macroNonneg_sumItemMacros (items : List AnalysisItem)
    (h : ∀ it ∈ items, macroNonneg it.macros) :
    macroNonneg (sumItemMacros items) := by
  induction items with
  | nil => exact macroNonneg_zero
  | cons it rest ih =>
    rw [sumItemMacros_cons]
    exact macroNonneg_addMacros (h it (by simp))
      (ih fun x hx => h x (by simp [hx]))

theorem macroNonneg_sourceContribution (r : BillAnalysis)
    (hitems : ∀ it ∈ r.items, macroNonneg it.macros)
    (htot : optMacroNonneg r.totalMacros) :
    macroNonneg (sourceContribution r) := by
  cases htm : r.totalMacros with
  | some t =>
    rw [htm] at htot
    simpa [sourceContribution, htm] using htot
  | none =>
    simpa [sourceContribution, htm] using macroNonneg_sumItemMacros r.items hitems

theorem macroNonneg_macroSum (rs : List BillAnalysis) (h : sourcesNonneg rs) :
    macroNonneg (macroSum rs) := by
  induction rs with
  | nil => exact macroNonneg_zero
  | cons r rest ih =>
    rw [macroSum_cons]
    have hr := h r (by simp)
    exact macroNonneg_addMacros
      (macroNonneg_sourceContribution r hr.1 hr.2)
      (ih fun x hx => h x (by simp [hx]))

theorem signalFold_pos (l : List Outcome) (s c : ℕ) (hs : 1 ≤ s) :
    (l.foldl (fun p o => (p.1 + 1, p.2 + (if signalAt p.1 o then 1 else 0)))
      (s, c)).2 = c := by
  induction l generalizing s c with
  | nil => rfl
  | cons o rest ih =>
    have h1 : signalAt s o = false := by
      cases o with
      | success r =>
        simp only [signalAt, beq_eq_false_iff_ne, ne_eq]
        omega
      | failure => rfl
    simp only [List.foldl, h1, Bool.false_eq_true, if_false, Nat.add_zero]
    exact ih (s + 1) c (by omega)

theorem signalCount_cons (o : Outcome) (rest : List Outcome) :
    signalCount (o :: rest) = if signalAt 0 o then 1 else 0 := by
  simp only [signalCount, List.foldl]
  rw [signalFold_pos rest (0 + 1) (0 + if signalAt 0 o then 1 else 0) (by omega)]
  rw [Nat.zero_add]

/-- Initial composite for the 3-image scenario. -/
def initC1 : BillAnalysis := initialAnalysis "c1" "2024-05-04" ScanMode.receipt 3

/-! Claim theorems. -/

/-- C1 (counterexample): the claim says the final score is the same in every
settlement order and equals round((80+60)/2) = 70 in the 3-image scenario.
On the code the score weight is the count of ALL previously settled tasks
(failures included), so when the failure settles between the two successes
the final score is 73, not 70. -/
theorem c1_order_dependent_score :
    (runBatch 3 initC1
      [Outcome.success r80, Outcome.failure, Outcome.success r60]).healthScore = 73 ∧
    (runBatch 3 initC1
      [Outcome.success r80, Outcome.success r60, Outcome.failure]).healthScore = 70 ∧
    (73 : ℚ) ≠ 70 := by
  refine ⟨?_, ?_, by norm_num⟩ <;>
    simp only [runBatch, List.foldl, mergeStep, mergeSuccess, mergeFailure,
      initialAnalysis, initC1, settledCount, r80, r60] <;>
    norm_num [round_eq]

/-- C1 (amended): the running score update weights the prior score by the
number of previously settled tasks INCLUDING failures
(`prev.scanProgress?.current`), so the final score depends on settlement
order.  In the 3-image scenario (scores 80 and 60 with 2 and 3 items, one
failure) the final item count is 5 and final progress is 3/3 in every one of
the six settlement orders, and the final score is 70 exactly in the orders
where the failing task settles last (otherwise 73, 67 or 47). -/
theorem c1_scenario :
    (∀ total prev r, (mergeSuccess total prev r).healthScore =
      ((round ((prev.healthScore * (settledCount prev : ℚ) + r.healthScore) /
        ((settledCount prev : ℚ) + 1)) : ℤ) : ℚ)) ∧
    (runBatch 3 initC1
      [Outcome.success r80, Outcome.success r60, Outcome.failure]).healthScore = 70 ∧
    (runBatch 3 initC1
      [Outcome.success r60, Outcome.success r80, Outcome.failure]).healthScore = 70 ∧
    (runBatch 3 initC1
      [Outcome.success r80, Outcome.failure, Outcome.success r60]).healthScore = 73 ∧
    (runBatch 3 initC1
      [Outcome.success r60, Outcome.failure, Outcome.success r80]).healthScore = 67 ∧
    (runBatch 3 initC1
      [Outcome.failure, Outcome.success r80, Outcome.success r60]).healthScore = 47 ∧
    (runBatch 3 initC1
      [Outcome.failure, Outcome.success r60, Outcome.success r80]).healthScore = 47 ∧
    (runBatch 3 initC1
      [Outcome.success r80, Outcome.success r60, Outcome.failure]).items.length = 5 ∧
    (runBatch 3 initC1
      [Outcome.success r60, Outcome.success r80, Outcome.failure]).items.length = 5 ∧
    (runBatch 3 initC1
      [Outcome.success r80, Outcome.failure, Outcome.success r60]).items.length = 5 ∧
    (runBatch 3 initC1
      [Outcome.success r60, Outcome.failure, Outcome.success r80]).items.length = 5 ∧
    (runBatch 3 initC1
      [Outcome.failure, Outcome.success r80, Outcome.success r60]).items.length = 5 ∧
    (runBatch 3 initC1
      [Outcome.failure, Outcome.success r60, Outcome.success r80]).items.length = 5 ∧
    (runBatch 3 initC1
      [Outcome.success r80, Outcome.success r60, Outcome.failure]).scanProgress = some ⟨3, 3⟩ ∧
    (runBatch 3 initC1
      [Outcome.success r60, Outcome.success r80, Outcome.failure]).scanProgress = some ⟨3, 3⟩ ∧
    (runBatch 3 initC1
      [Outcome.success r80, Outcome.failure, Outcome.success r60]).scanProgress = some ⟨3, 3⟩ ∧
    (runBatch 3 initC1
      [Outcome.success r60, Outcome.failure, Outcome.success r80]).scanProgress = some ⟨3, 3⟩ ∧
    (runBatch 3 initC1
      [Outcome.failure, Outcome.success r80, Outcome.success r60]).scanProgress = some ⟨3, 3⟩ ∧
    (runBatch 3 initC1
      [Outcome.failure, Outcome.success r60, Outcome.success r80]).scanProgress = some ⟨3, 3⟩ := by
  refine ⟨fun total prev r => rfl, ?_, ?_, ?_, ?_, ?_, ?_,
    ?_, ?_, ?_, ?_, ?_, ?_, ?_, ?_, ?_, ?_, ?_, ?_⟩
  all_goals first
    | decide
    | (simp only [runBatch, List.foldl, mergeStep, mergeSuccess, mergeFailure,
        initialAnalysis, initC1, settledCount, r80, r60]
       norm_num [round_eq])

/-- C2 (counterexample): the claim says the first-result-ready transition
fires exactly once whenever at least one source succeeds, regardless of
failures settling first.  On the code, a failure settling first makes the
later success observe completedCount = 2, so the signal never fires. -/
theorem c2_failure_first_suppresses_signal :
    signalCount [Outcome.failure, Outcome.success rSingle] = 0 ∧
    signalCount [Outcome.failure, Outcome.success rSingle] ≠ 1 := by
  refine ⟨?_, ?_⟩ <;> decide

/-- C2 (amended): the first-result-ready transition fires at most once, and
it fires exactly once iff the FIRST task to settle is a success; any failure
settling before the first success suppresses it for the whole batch. -/
theorem c2_signal_iff_first_settlement_success (outcomes : List Outcome) :
    signalCount outcomes ≤ 1 ∧
    (signalCount outcomes = 1 ↔ ∃ r rest, outcomes = Outcome.success r :: rest) := by
  cases outcomes with
  | nil =>
    refine ⟨by simp [signalCount], ?_⟩
    constructor
    · intro h
      simp [signalCount] at h
    · rintro ⟨r, rest, h⟩
      simp at h
  | cons o rest =>
    cases o with
    | success r =>
      have hc : signalCount (Outcome.success r :: rest) = 1 := by
        rw [signalCount_cons]
        simp [signalAt]
      rw [hc]
      exact ⟨le_refl 1, ⟨fun _ => ⟨r, rest, rfl⟩, fun _ => rfl⟩⟩
    | failure =>
      have hc : signalCount (Outcome.failure :: rest) = 0 := by
        rw [signalCount_cons]
        simp [signalAt]
      rw [hc]
      refine ⟨by omega, ?_⟩
      constructor
      · intro h
        exact absurd h (by omega)
      · rintro ⟨r2, rest2, heq⟩
        simp at heq

/-- C3: a failure settlement increments the settled count by exactly one and
leaves the composite's items, macro totals, score, summary and restaurant
name unchanged; the error is swallowed inside the merge layer (the model is a
total function) and the batch fold continues through the failure, so sibling
tasks and the batch are not aborted. -/
theorem c3_failure_frame (total : ℕ) (prev : BillAnalysis) :
    (mergeStep total prev Outcome.failure).items = prev.items ∧
    (mergeStep total prev Outcome.failure).totalMacros = prev.totalMacros ∧
    (mergeStep total prev Outcome.failure).healthScore = prev.healthScore ∧
    (mergeStep total prev Outcome.failure).summary = prev.summary ∧
    (mergeStep total prev Outcome.failure).restaurantName = prev.restaurantName ∧
    settledCount (mergeStep total prev Outcome.failure) = settledCount prev + 1 ∧
    ∀ rest, runBatch total prev (Outcome.failure :: rest) =
      runBatch total (mergeStep total prev Outcome.failure) rest :=
  ⟨rfl, rfl, rfl, rfl, rfl, settledCount_mergeStep total prev .failure, fun _ => rfl⟩

/-- C4: on every composite the settled count starts at 0, rises by exactly 1
per settlement (monotonically, with no duplicate or skipped increments),
never exceeds the batch size, and after all N dispatched tasks settle the
progress pair equals (N, N), regardless of how many sources failed. -/
theorem c4_progress_invariants (id date : String) (mode : ScanMode) (N : ℕ)
    (outcomes : List Outcome) (hlen : outcomes.length = N) :
    (∀ k, settledCount (runBatch N (initialAnalysis id date mode N)
      (outcomes.take k)) = min k N) ∧
    (∀ k, settledCount (runBatch N (initialAnalysis id date mode N)
      (outcomes.take k)) ≤ N) ∧
    (∀ k, k < N →
      settledCount (runBatch N (initialAnalysis id date mode N)
        (outcomes.take (k + 1))) =
      settledCount (runBatch N (initialAnalysis id date mode N)
        (outcomes.take k)) + 1) ∧
    settledCount (runBatch N (initialAnalysis id date mode N) outcomes) = N ∧
    (runBatch N (initialAnalysis id date mode N) outcomes).scanProgress =
      some ⟨N, N⟩ := by
  have h0 : settledCount (initialAnalysis id date mode N) = 0 := by
    simp [initialAnalysis, settledCount]
  have htake : ∀ k, settledCount (runBatch N (initialAnalysis id date mode N)
      (outcomes.take k)) = min k N := by
    intro k
    rw [settledCount_runBatch, h0, List.length_take, hlen]
    exact Nat.zero_add _
  refine ⟨htake, fun k => by rw [htake]; omega,
    fun k hk => by rw [htake, htake]; omega, ?_, ?_⟩
  · rw [settledCount_runBatch, h0, hlen]
    exact Nat.zero_add _
  · cases houts : outcomes with
    | nil =>
      rw [houts] at hlen
      simp only [List.length_nil] at hlen
      subst hlen
      simp [runBatch, initialAnalysis]
    | cons o rest =>
      rw [houts] at hlen
      rw [scanProgress_runBatch N _ _ (by simp), h0, Nat.zero_add, hlen]

/-- C4 (witness): a concrete batch of two tasks that both fail still ends
with settled count 2 and progress (2, 2). -/
theorem c4_progress_invariants_witness :
    settledCount (runBatch 2 (initialAnalysis "i" "d" ScanMode.receipt 2)
      [Outcome.failure, Outcome.failure]) = 2 ∧
    (runBatch 2 (initialAnalysis "i" "d" ScanMode.receipt 2)
      [Outcome.failure, Outcome.failure]).scanProgress = some ⟨2, 2⟩ :=
  ⟨(c4_progress_invariants "i" "d" ScanMode.receipt 2
      [Outcome.failure, Outcome.failure] rfl).2.2.2.1,
   (c4_progress_invariants "i" "d" ScanMode.receipt 2
      [Outcome.failure, Outcome.failure] rfl).2.2.2.2⟩

/-- C5 (counterexample): the claim says eviction repeats one record at a time
until the write succeeds or one record remains, and that no persistence
failure escapes.  On the code the single retry after one eviction runs
outside the try/catch: with capacity of one record and three stored, the
retry write of two records fails and the exception escapes the effect, and
the newest record is not persisted. -/
theorem c5_second_eviction_throws :
    historyQuotaEffect (fun l => decide (l.length ≤ 1)) [recH1, recH2, recH3] =
      QuotaOutcome.thrown ∧
    historyQuotaEffect (fun l => decide (l.length ≤ 1)) [recH1, recH2, recH3] ≠
      QuotaOutcome.persisted [recH3] := by
  refine ⟨?_, ?_⟩ <;> decide

/-- C5 (amended): on a quota failure the effect evicts the single oldest
record (FIFO) and retries exactly once: the append succeeds iff the history
already fits or fits after removing one record; if even the trimmed history
does not fit and more than one record was stored, the retry's persistence
failure escapes the effect unhandled; with at most one record stored the
failure is swallowed and nothing is persisted. -/
theorem c5_single_eviction_retry (canStore : List BillAnalysis → Bool)
    (h : List BillAnalysis) :
    (canStore h = true → historyQuotaEffect canStore h = QuotaOutcome.persisted h) ∧
    (canStore h = false → 1 < h.length → canStore (h.drop 1) = true →
      historyQuotaEffect canStore h = QuotaOutcome.persisted (h.drop 1)) ∧
    (canStore h = false → 1 < h.length → canStore (h.drop 1) = false →
      historyQuotaEffect canStore h = QuotaOutcome.thrown) ∧
    (canStore h = false → ¬ 1 < h.length →
      historyQuotaEffect canStore h = QuotaOutcome.caught) := by
  refine ⟨fun h1 => by simp [historyQuotaEffect, h1],
    fun h1 h2 h3 => ?_, fun h1 h2 h3 => ?_,
    fun h1 h2 => by simp [historyQuotaEffect, h1, h2]⟩ <;>
  · rw [List.drop_one] at h3
    simp [historyQuotaEffect, h1, h2, h3]

/-- C5 (witness): with capacity of one record, persisting two records evicts
the oldest and persists the newest. -/
theorem c5_single_eviction_retry_witness :
    historyQuotaEffect (fun l => decide (l.length ≤ 1)) [recH1, recH2] =
      QuotaOutcome.persisted [recH2] :=
  (c5_single_eviction_retry (fun l => decide (l.length ≤ 1)) [recH1, recH2]).2.1
    (by decide) (by decide) (by decide)

/-- C6: every successful merge appends the source's items after the last item
of the current sequence, preserving their internal order, so the final item
sequence is the concatenation of the successful partial results' item
sequences in settlement (completion) order. -/
theorem c6_items_concat_completion_order (total : ℕ) (init : BillAnalysis)
    (outcomes : List Outcome) :
    (∀ prev r, (mergeSuccess total prev r).items = prev.items ++ r.items) ∧
    (runBatch total init outcomes).items =
      init.items ++ ((successResults outcomes).map BillAnalysis.items).flatten := by
  refine ⟨fun prev r => rfl, ?_⟩
  induction outcomes generalizing init with
  | nil => simp [runBatch, successResults]
  | cons o rest ih =>
    rw [runBatch_cons, ih]
    cases o with
    | success r =>
      simp [mergeStep, mergeSuccess, successResults, List.append_assoc]
    | failure =>
      simp [mergeStep, mergeFailure, successResults]

/-- C7: every successful merge adds the source's pre-aggregated macro totals
when present and otherwise the sum of its items' macros; over a whole batch
the composite's totals equal the arithmetic sum of the merged sources'
contributions, and they are non-negative when every merged source reports
only non-negative macros. -/
theorem c7_macro_totals (total : ℕ) (id date : String) (mode : ScanMode)
    (outcomes : List Outcome) (hnn : sourcesNonneg (successResults outcomes)) :
    (∀ prev r, (mergeSuccess total prev r).totalMacros =
      some (addMacros (prev.totalMacros.getD zeroMacros) (sourceContribution r))) ∧
    (runBatch total (initialAnalysis id date mode total) outcomes).totalMacros =
      some (macroSum (successResults outcomes)) ∧
    macroNonneg (macroSum (successResults outcomes)) := by
  refine ⟨fun prev r => totalMacros_mergeSuccess total prev r, ?_,
    macroNonneg_macroSum _ hnn⟩
  rw [totalMacros_runBatch total (initialAnalysis id date mode total) outcomes
    zeroMacros (by simp [initialAnalysis])]
  rfl

/-- C7 (witness): a concrete batch with one success and one failure has totals
equal to the single source's contribution and non-negative. -/
theorem c7_macro_totals_witness :
    (runBatch 2 (initialAnalysis "i" "d" ScanMode.receipt 2)
      [Outcome.success rSingle, Outcome.failure]).totalMacros =
      some (macroSum (successResults [Outcome.success rSingle, Outcome.failure])) ∧
    macroNonneg (macroSum (successResults [Outcome.success rSingle, Outcome.failure])) :=
  ⟨(c7_macro_totals 2 "i" "d" ScanMode.receipt
      [Outcome.success rSingle, Outcome.failure] (by decide)).2.1,
   (c7_macro_totals 2 "i" "d" ScanMode.receipt
      [Outcome.success rSingle, Outcome.failure] (by decide)).2.2⟩

/-- C8 (counterexample): the claim says the single-success record's total
macros are exactly those of the partial result.  When the source reports no
pre-aggregated totals, the merge stores the item-sum instead, so the
finalized record's totals differ from the source's (some sum vs none). -/
theorem c8_totalMacros_not_verbatim :
    (finalize (runBatch 1 (initialAnalysis "i" "d" ScanMode.receipt 1)
      [Outcome.success rNoTotal])).totalMacros ≠ rNoTotal.totalMacros := by
  decide

/-- C8 (amended): for a single-image batch whose analysis succeeds with `r`
(whose score is integral, as the 0-100 score contract requires), the
finalized record carries exactly r's items, summary and restaurant name, the
injected id, date and mode, cleared progress, r's score, and r's total macros
when present — otherwise the sum of r's item macros. -/
theorem c8_single_success_record (id date : String) (mode : ScanMode)
    (r : BillAnalysis) (hscore : ((round r.healthScore : ℤ) : ℚ) = r.healthScore) :
    (singleBatchRecord id date mode r).items = r.items ∧
    (singleBatchRecord id date mode r).totalMacros =
      some (r.totalMacros.getD (sumItemMacros r.items)) ∧
    (singleBatchRecord id date mode r).healthScore = r.healthScore ∧
    (singleBatchRecord id date mode r).summary = r.summary ∧
    (singleBatchRecord id date mode r).restaurantName = r.restaurantName ∧
    (singleBatchRecord id date mode r).id = id ∧
    (singleBatchRecord id date mode r).date = date ∧
    (singleBatchRecord id date mode r).type = mode ∧
    (singleBatchRecord id date mode r).scanProgress = none := by
  refine ⟨?_, ?_, ?_, ?_, ?_, ?_, ?_, ?_, ?_⟩ <;>
    simp [singleBatchRecord, runBatch, mergeStep, mergeSuccess, finalize,
      initialAnalysis, settledCount, strOr, strTruthy, mergeMacros_eq,
      addMacros_zero_left, sourceContribution, hscore]

/-- C8 (witness): the single-success record of the concrete score-55 source
keeps its score and summary verbatim. -/
theorem c8_single_success_record_witness :
    (singleBatchRecord "i" "d" ScanMode.receipt rSingle).healthScore =
      rSingle.healthScore ∧
    (singleBatchRecord "i" "d" ScanMode.receipt rSingle).summary =
      rSingle.summary :=
  ⟨(c8_single_success_record "i" "d" ScanMode.receipt rSingle
      (by norm_num [rSingle, round_eq])).2.2.1,
   (c8_single_success_record "i" "d" ScanMode.receipt rSingle
      (by norm_num [rSingle, round_eq])).2.2.2.1⟩

/-- C9 (counterexample): the claim says the composite's first successful
merge adopts r.summary verbatim.  The code's guard counts failed settlements
too: after one failure, the first successful merge produces the
progress-style summary instead of r's. -/
theorem c9_first_success_after_failure :
    (runBatch 2 (initialAnalysis "i" "d" ScanMode.receipt 2)
      [Outcome.failure, Outcome.success rSingle]).summary =
      "Analyzed 1 items from 2 images..." ∧
    (runBatch 2 (initialAnalysis "i" "d" ScanMode.receipt 2)
      [Outcome.failure, Outcome.success rSingle]).summary ≠ rSingle.summary := by
  refine ⟨?_, ?_⟩ <;> decide

/-- C9 (amended): a successful merge adopts r.summary verbatim iff NO task of
the batch (success or failure) settled before it; otherwise — even at the
first successful merge — it writes the progress-style message built from the
new item count and the settled count. -/
theorem c9_summary_adoption (total : ℕ) (prev r : BillAnalysis) :
    (settledCount prev = 0 → (mergeSuccess total prev r).summary = r.summary) ∧
    (settledCount prev ≠ 0 → (mergeSuccess total prev r).summary =
      "Analyzed " ++ toString (prev.items ++ r.items).length ++
        " items from " ++ toString (settledCount prev + 1) ++ " images...") := by
  constructor <;> intro h <;> simp [mergeSuccess, h]

/-- C9 (witness): merging into the untouched initial composite adopts the
source summary verbatim. -/
theorem c9_summary_adoption_witness :
    (mergeSuccess 1 (initialAnalysis "i" "d" ScanMode.receipt 1) rSingle).summary =
      rSingle.summary :=
  (c9_summary_adoption 1 (initialAnalysis "i" "d" ScanMode.receipt 1) rSingle).1
    (by decide)

/-- C10: once the request reaches the try block, every failure of
analyzeImage — a rejected fetch, a non-OK response (with or without a
server-reported error body) or an unparsable body — surfaces as an Error
with the one fixed connection message, never the original cause or the
server detail; a parsed OK response is hydrated with the injected id, date
and mode. -/
theorem c10_fixed_error_message (img : String) (id date : String)
    (mode : ScanMode) (reason : String) (status : ℕ)
    (errField : Option String) (d : AnalysisData) :
    analyzeImage (.ok img) id date mode (.fetchFailed reason) =
      .error connectionErrorMessage ∧
    analyzeImage (.ok img) id date mode (.badResponse status errField) =
      .error connectionErrorMessage ∧
    analyzeImage (.ok img) id date mode (.badResponseUnparsable status) =
      .error connectionErrorMessage ∧
    analyzeImage (.ok img) id date mode .okUnparsable =
      .error connectionErrorMessage ∧
    analyzeImage (.ok img) id date mode (.okParsed d) =
      .ok (hydrate d id date mode) ∧
    ∀ o, analyzeImage (.ok img) id date mode o = .error connectionErrorMessage ∨
      ∃ d2, analyzeImage (.ok img) id date mode o = .ok (hydrate d2 id date mode) := by
  refine ⟨rfl, rfl, rfl, rfl, rfl, ?_⟩
  intro o
  cases o with
  | fetchFailed reason2 => exact .inl rfl
  | badResponse status2 errField2 => exact .inl rfl
  | badResponseUnparsable status2 => exact .inl rfl
  | okUnparsable => exact .inl rfl
  | okParsed d2 => exact .inr ⟨d2, rfl⟩

end NutriScan
